import Mathlib

/-!
# Endpoint discovery of worldping-api: a shallow embedding

Embedding of `pkg/services/endpointdiscovery/endpointdiscovery.go` and of
`getDefaultChecks` in `pkg/api/v2_endpoint.go`.

* Go strings are Lean `String`s; the helpers of package `strings` that the
  source calls (`Split`, `Join`, `TrimSuffix`) are structural functions on the
  character lists.
* A `map[string]interface{}` literal is an association list in the order in
  which the source writes its keys.
* The network and the storage layer are parameters (`World`, `GetProbeByName`).
* The four goroutines of `Discover` send on one unbuffered channel; the order
  in which the sends are received is the parameter `sched`.
* The `for { ... }` loop of `DiscoverDNS` takes fuel; `none` means the fuel ran
  out before the loop reached a `break`.
-/

namespace Worldping

/-! ## Go strings -/

/-- Pieces of `s` between occurrences of the character `sep`: at least one piece. -/
def splitChars (sep : Char) : List Char → List (List Char)
  | [] => [[]]
  | c :: cs =>
    if c = sep then [] :: splitChars sep cs
    else
      match splitChars sep cs with
      | [] => [[c]]
      | p :: ps => (c :: p) :: ps

/-- Concatenation of the pieces with `sep` between consecutive ones. -/
def joinChars (sep : List Char) : List (List Char) → List Char
  | [] => []
  | [p] => p
  | p :: q :: ps => p ++ sep ++ joinChars sep (q :: ps)

/-- Go `strings.Split(s, sep)` for a separator of one character. -/
def Split (s : String) (sep : Char) : List String :=
  (splitChars sep s.data).map String.mk

/-- Go `strings.Join(elems, sep)`. -/
def Join (elems : List String) (sep : String) : String :=
  String.mk (joinChars sep.data (elems.map String.data))

/-- Go `strings.TrimSuffix(s, suffix)`: `s` without the trailing `suffix`, if it ends in it. -/
def TrimSuffix (s suffix : String) : String :=
  if suffix.data.isSuffixOf s.data then
    String.mk (s.data.take (s.data.length - suffix.data.length))
  else s

/-- Number of occurrences of `.` in a string. -/
def dots (s : String) : Nat := s.data.count '.'

/-! ## Data model (package `models`, the parts the two source files use) -/

/-- Modelled from the spec: Go `error` values. `ErrProbeNotFound` is the
not-found sentinel of package `models` (not among the sources) that
`InitEndpointDiscovery` compares against; every other error is `other`. -/
inductive Error
  | ErrProbeNotFound
  | other (text : String)
  deriving DecidableEq, Repr

/-- Values stored in a `map[string]interface{}` by the source. An untyped
integer constant is stored as Go `int`; `varPort` is an `int64`;
`defaultProbes` is an `[]int64`. -/
inductive Value
  | str (s : String)
  | int (n : Int)
  | int64 (n : Int)
  | bool (b : Bool)
  | int64s (l : List Int)
  deriving DecidableEq, Repr

/-- A `map[string]interface{}` literal, in the order of its keys in the source. -/
abbrev Settings := List (String × Value)

/-- Value stored under `key`, if any. -/
def Settings.get (m : Settings) (key : String) : Option Value :=
  (m.find? (fun kv => kv.1 == key)).map Prod.snd

/-- Modelled from the spec: the route types of package `models`, which is not
part of the sources; discovery only ever uses `RouteByIds`. -/
inductive RouteType
  | RouteByTags
  | RouteByIds
  deriving DecidableEq, Repr

/-- Modelled from the spec: `m.CheckRoute` of package `models`, which is not
among the sources, with the fields that the source sets. -/
structure CheckRoute where
  Type_ : RouteType
  Config : Settings
  deriving DecidableEq, Repr

/-- Modelled from the spec: `m.CheckHealthSettings` of package `models`, which
is not among the sources. -/
structure CheckHealthSettings where
  NumProbes : Int
  Steps : Int
  deriving DecidableEq, Repr

/-- Modelled from the spec: `m.Check` of package `models`, which is not among
the sources, with the fields that the source sets; a `nil` pointer is `none`. -/
structure Check where
  Type_ : String
  Frequency : Int
  Settings : Settings
  Route : Option CheckRoute := none
  HealthSettings : Option CheckHealthSettings := none
  Enabled : Bool
  deriving DecidableEq, Repr

/-- Modelled from the spec: `m.EndpointDTO` of package `models`, which is not
among the sources, with the fields that the source sets. -/
structure EndpointDTO where
  Name : String
  Checks : List Check
  deriving DecidableEq, Repr

/-- Modelled from the spec: `m.ProbeDTO` of package `models`, which is not among
the sources; only `Id` is read. -/
structure ProbeDTO where
  Id : Int
  deriving DecidableEq, Repr

/-- Go `url.URL`: the three components that the source reads. -/
structure URL where
  Scheme : String
  Host : String
  Path : String
  deriving DecidableEq, Repr

/-- Go `(*url.URL).String()` for a URL made of scheme, authority and path. -/
def URL.String (u : URL) : String := u.Scheme ++ "://" ++ u.Host ++ u.Path

/-- Go `net.NS`. -/
structure NS where
  Host : String
  deriving DecidableEq, Repr

/-- The network as the probes see it.
* `ping host` is `true` when `exec.Command("ping", "-c 3", "-W 1", "-q", host).Run()` returns `nil`;
* `Head url` is the result of `http.Head(url)`: a transport error, or
  `resp.Request.URL`, the URL of the last request after redirects;
* `LookupNS domain` is the result of `net.LookupNS(domain)`: the records and the error. -/
structure World where
  ping : String → Bool
  Head : String → Except Error URL
  LookupNS : String → List NS × Option Error

/-! ## Go `strconv.ParseInt(s, 10, 32)` -/

/-- Value of a string of decimal digits, `none` when a character is not a digit. -/
def digitsValue : List Char → Nat → Option Nat
  | [], acc => some acc
  | c :: cs, acc =>
    if '0' ≤ c ∧ c ≤ '9' then digitsValue cs (acc * 10 + (c.toNat - '0'.toNat)) else none

/-- Go `strconv.ParseInt(s, 10, 32)`, the value only (the source drops the
error): `0` on a syntax error, the nearest 32-bit bound on a range error. -/
def ParseInt32 (s : String) : Int :=
  let body (neg : Bool) (ds : List Char) : Int :=
    match ds with
    | [] => 0
    | _ =>
      match digitsValue ds 0 with
      | none => 0
      | some un =>
        if !neg ∧ un ≥ 2 ^ 31 then 2 ^ 31 - 1
        else if neg ∧ un > 2 ^ 31 then -(2 ^ 31)
        else if neg then -(un : Int) else (un : Int)
  match s.data with
  | [] => 0
  | '+' :: ds => body false ds
  | '-' :: ds => body true ds
  | ds => body false ds

/-! ## `endpointdiscovery.go` -/

namespace endpointdiscovery

/-- Go `type Endpoint struct`. -/
structure Endpoint where
  Host : String
  IsIP : Bool := false
  URL : Option URL := none
  deriving DecidableEq, Repr

/-- Go `NewEndpoint`: the body after the first `return` is commented out. -/
def NewEndpoint (hostname : String) : Except Error Endpoint :=
  .ok { Host := hostname }

/-- The fixed list of probe names of `InitEndpointDiscovery`. -/
def defaultProbeNames : List String :=
  ["VNPT_HN", "VNPT", "FPT", "VIETTEL", "THANHPV", "THANHPVWINDOW"]

/-- State of the `for ... range` loop of `InitEndpointDiscovery` when it is left. -/
structure InitResult where
  err : Option Error
  defaultProbes : List Int
  lookups : List String
  deriving DecidableEq, Repr

/-- The `for _, name := range ...` loop of `InitEndpointDiscovery` over the
remaining names; `lookups` records the names passed to `GetProbeByName`. -/
def initLoop (GetProbeByName : String → Int → Except Error ProbeDTO) :
    List String → List Int → List String → InitResult
  | [], defaultProbes, lookups => ⟨none, defaultProbes, lookups⟩
  | name :: rest, defaultProbes, lookups =>
    match GetProbeByName name 1 with
    | .error err =>
      if err = Error.ErrProbeNotFound then
        initLoop GetProbeByName rest defaultProbes (lookups ++ [name])
      else ⟨some err, defaultProbes, lookups ++ [name]⟩
    | .ok probe =>
      initLoop GetProbeByName rest (defaultProbes ++ [probe.Id]) (lookups ++ [name])

/-- Go `InitEndpointDiscovery`, as a function of the storage lookup and of the
value of the package variable `defaultProbes` before the call. -/
def InitEndpointDiscovery (GetProbeByName : String → Int → Except Error ProbeDTO)
    (defaultProbes : List Int) : InitResult :=
  initLoop GetProbeByName defaultProbeNames defaultProbes []

/-- Go `DiscoverPing`. -/
def DiscoverPing (w : World) (endpoint : Endpoint) : Except Error Check :=
  if !w.ping endpoint.Host then .error (.other "host unreachable")
  else
    .ok { Type_ := "ping", Frequency := 60,
          Settings := [("hostname", .str endpoint.Host), ("timeout", .int 5)],
          Enabled := true }

/-- The host and port that `DiscoverHttp` and `DiscoverHttps` take from
`requestUrl.Host`: `strings.Split(requestUrl.Host, ":")`, part 0, and
`strconv.ParseInt` of part 1 when there is one. -/
def hostPort (requestHost : String) (defaultPort : Int) : String × Int :=
  let hostParts := Split requestHost ':'
  let varHost := hostParts.headD ""
  let varPort := if hostParts.length > 1 then ParseInt32 (hostParts.getD 1 "") else defaultPort
  (varHost, varPort)

/-- Go `DiscoverHttp`. -/
def DiscoverHttp (w : World) (endpoint : Endpoint) : Except Error Check :=
  let host := match endpoint.URL with
    | some u => if u.Scheme = "http" then u.Host else endpoint.Host
    | none => endpoint.Host
  let path := match endpoint.URL with
    | some u => u.Path
    | none => "/"
  match w.Head ("http://" ++ host ++ path) with
  | .error err => .error err
  | .ok requestUrl =>
    if requestUrl.Scheme ≠ "http" then .error (.other "HTTP redirects to HTTPS")
    else
      let hp := hostPort requestUrl.Host 80
      .ok { Type_ := "http", Frequency := 120,
            Settings := [("host", .str hp.1), ("port", .int64 hp.2),
              ("path", .str requestUrl.Path), ("method", .str "GET"),
              ("headers", .str "User-Agent: worldping-api\nAccept-Encoding: gzip\n"),
              ("timeout", .int 5)],
            Enabled := true }

/-- Go `DiscoverHttps`. -/
def DiscoverHttps (w : World) (endpoint : Endpoint) : Except Error Check :=
  let host := match endpoint.URL with
    | some u => if u.Scheme = "https" then u.Host else endpoint.Host
    | none => endpoint.Host
  let path := match endpoint.URL with
    | some u => u.Path
    | none => "/"
  match w.Head ("https://" ++ host ++ path) with
  | .error err => .error err
  | .ok requestUrl =>
    let hp := hostPort requestUrl.Host 443
    .ok { Type_ := "https", Frequency := 120,
          Settings := [("host", .str hp.1), ("port", .int64 hp.2),
            ("path", .str requestUrl.Path), ("method", .str "GET"),
            ("headers", .str "User-Agent: worldping-api\nAccept-Encoding: gzip\n"),
            ("timeout", .int 5), ("validateCert", .bool true)],
          Enabled := true }

/-- State of the `for { ... }` loop of `DiscoverDNS` when it is left: the value
of `server`, and the domains passed to `net.LookupNS`, in order. -/
structure NSWalk where
  server : String
  lookups : List String
  deriving DecidableEq, Repr

/-- The `for { ... }` loop of `DiscoverDNS`, from the state `domain`, `server`;
`none` when the fuel is used up before a `break`. -/
def nsLoop (w : World) : Nat → String → String → List String → Option NSWalk
  | 0, _, _, _ => none
  | fuel + 1, domain, server, lookups =>
    let (nameservers, err) := w.LookupNS domain
    if err ≠ none ∨ nameservers.length < 1 then
      let parts := Split domain '.'
      if parts.length < 2 then some ⟨server, lookups ++ [domain]⟩
      else nsLoop w fuel (Join (parts.drop 1) ".") server (lookups ++ [domain])
    else
      let servers := nameservers.map (fun ns => TrimSuffix ns.Host ".")
      some ⟨Join servers ",", lookups ++ [domain]⟩

/-- Go `DiscoverDNS`; `none` when the loop does not end within the fuel. -/
def DiscoverDNS (w : World) (fuel : Nat) (endpoint : Endpoint) : Option (Except Error Check) :=
  let domain := endpoint.Host
  let recordType := "A"
  let recordName := domain
  match nsLoop w fuel domain "8.8.8.8" [] with
  | none => none
  | some walk =>
    some (.ok { Type_ := "dns", Frequency := 120,
                Settings := [("name", .str recordName), ("type", .str recordType),
                  ("port", .int 53), ("server", .str walk.server),
                  ("timeout", .int 5), ("protocol", .str "udp")],
                Enabled := true })

/-- The four probes that `Discover` starts, one goroutine each. -/
inductive ProbeKind
  | ping
  | http
  | https
  | dns
  deriving DecidableEq, Repr

/-- The four goroutines in the order in which the source starts them. -/
def allProbes : List ProbeKind := [.ping, .http, .https, .dns]

/-- What the goroutine of a probe sends on `checkChan` before `wg.Done()`:
`some (some c)` for the check `c`, `some none` when it sends nothing, `none`
when it never reaches `wg.Done()`. -/
def goroutine (w : World) (fuel : Nat) (endpoint : Endpoint) : ProbeKind → Option (Option Check)
  | .ping =>
    match DiscoverPing w endpoint with
    | .ok pingCheck => some (some pingCheck)
    | .error _ => some none
  | .http =>
    match DiscoverHttp w endpoint with
    | .ok httpCheck => some (some httpCheck)
    | .error _ => some none
  | .https =>
    match DiscoverHttps w endpoint with
    | .ok httpsCheck => some (some httpsCheck)
    | .error _ => some none
  | .dns =>
    if !endpoint.IsIP then
      match DiscoverDNS w fuel endpoint with
      | none => none
      | some (.ok dnsCheck) => some (some dnsCheck)
      | some (.error _) => some none
    else some none

/-- The values received from `checkChan` until it is closed, when the
goroutines reach their send in the order `sched`; `none` when one of them never
finishes, so that the channel is never closed. -/
def received (w : World) (fuel : Nat) (endpoint : Endpoint) : List ProbeKind → Option (List Check)
  | [] => some []
  | p :: ps =>
    match goroutine w fuel endpoint p, received w fuel endpoint ps with
    | some (some c), some cs => some (c :: cs)
    | some none, some cs => some cs
    | _, _ => none

/-- The body of `for c := range checkChan` in `Discover`: the check `c` with
`HealthSettings` and `Route` assigned. -/
def stamp (defaultProbes : List Int) (c : Check) : Check :=
  { c with
    HealthSettings := some { NumProbes := 1, Steps := 1 },
    Route := some { Type_ := .RouteByIds, Config := [("ids", .int64s defaultProbes)] } }

/-- Go `Discover`. `defaultProbes` is the package variable, `sched` the order in
which the four goroutines reach their send on `checkChan`; `none` when the
receive loop never ends. -/
def Discover (w : World) (defaultProbes : List Int) (sched : List ProbeKind) (fuel : Nat)
    (hostname : String) : Option (Except Error EndpointDTO) :=
  match NewEndpoint hostname with
  | .error err => some (.error err)
  | .ok endpoint =>
    match received w fuel endpoint sched with
    | none => none
    | some cs =>
      let checks := cs.foldl (fun checks c => checks ++ [stamp defaultProbes c]) []
      some (.ok { Name := endpoint.Host, Checks := checks })

/-- Go `GetDefaultChecks` of package `endpointdiscovery`. -/
def GetDefaultChecks (defaultProbes : List Int) (hostname : String) : Except Error EndpointDTO :=
  match endpointdiscovery.NewEndpoint hostname with
  | .error err => .error err
  | .ok endpoint =>
  let checks : List Check := []
  let path := match endpoint.URL with
    | some u => u.Path
    | none => "/"
  let host := match endpoint.URL with
    | some u => u.String
    | none => hostname
  let httpCheck : Check :=
    { Type_ := "http", Frequency := 60,
      Settings := [("host", .str host), ("port", .int 80), ("path", .str path),
        ("method", .str "GET"), ("headers", .str "User-Agent: Mozilla/5.0\nAccept-Encoding: gzip\n"),
        ("timeout", .int 5), ("getall", .bool true)],
      Route := some { Type_ := .RouteByIds, Config := [("ids", .int64s defaultProbes)] },
      HealthSettings := some { NumProbes := 1, Steps := 1 },
      Enabled := true }
  let httpsCheck : Check :=
    { Type_ := "https", Frequency := 60,
      Settings := [("host", .str host), ("port", .int 443), ("path", .str path),
        ("method", .str "GET"), ("headers", .str "User-Agent: Mozilla/5.0\nAccept-Encoding: gzip\n"),
        ("timeout", .int 5), ("getall", .bool true)],
      Route := some { Type_ := .RouteByIds, Config := [("ids", .int64s defaultProbes)] },
      HealthSettings := some { NumProbes := 1, Steps := 1 },
      Enabled := true }
  let staticCheck : Check :=
    { Type_ := "static", Frequency := 60,
      Settings := [("host", .str host), ("method", .str "GET"),
        ("headers", .str "User-Agent: Mozilla/5.0\nAccept-Encoding: gzip\n"),
        ("timeout", .int 5), ("total", .int 5), ("getall", .bool true)],
      Route := some { Type_ := .RouteByIds, Config := [("ids", .int64s defaultProbes)] },
      HealthSettings := some { NumProbes := 1, Steps := 1 },
      Enabled := true }
  let clinkCheck : Check :=
    { Type_ := "clink", Frequency := 1800,
      Settings := [("host", .str host), ("method", .str "GET"),
        ("headers", .str "User-Agent: Mozilla/5.0\nAccept-Encoding: gzip\n"),
        ("timeout", .int 5), ("total", .int 5), ("getall", .bool true)],
      Route := some { Type_ := .RouteByIds, Config := [("ids", .int64s defaultProbes)] },
      HealthSettings := some { NumProbes := 1, Steps := 1 },
      Enabled := false }
  let cdnintegrityCheck : Check :=
    { Type_ := "cdnintegrity", Frequency := 1800,
      Settings := [("host", .str host),
        ("headers", .str "User-Agent: Mozilla/5.0\nAccept-Encoding: gzip\n"),
        ("numfile", .int 5), ("chunksize", .int 3145728)],
      Route := some { Type_ := .RouteByIds, Config := [("ids", .int64s defaultProbes)] },
      HealthSettings := some { NumProbes := 1, Steps := 1 },
      Enabled := false }
  let tcpCheck : Check :=
    { Type_ := "tcp", Frequency := 1800,
      Settings := [("host", .str host)],
      Route := some { Type_ := .RouteByIds, Config := [("ids", .int64s defaultProbes)] },
      HealthSettings := some { NumProbes := 1, Steps := 1 },
      Enabled := false }
  let dnsCheck : Check :=
    { Type_ := "dns", Frequency := 60,
      Settings := [("name", .str ""), ("type", .str ""), ("port", .int 53),
        ("server", .str ""), ("timeout", .int 5), ("protocol", .str "udp")],
      Route := some { Type_ := .RouteByIds, Config := [("ids", .int64s defaultProbes)] },
      HealthSettings := some { NumProbes := 1, Steps := 1 },
      Enabled := false }
  let pingCheck : Check :=
    { Type_ := "ping", Frequency := 10,
      Settings := [("hostname", .str host), ("timeout", .int 5)],
      Route := some { Type_ := .RouteByIds, Config := [("ids", .int64s defaultProbes)] },
      HealthSettings := some { NumProbes := 1, Steps := 1 },
      Enabled := false }
  let checks := checks ++ [httpCheck]
  let checks := checks ++ [httpsCheck]
  let checks := checks ++ [staticCheck]
  let checks := checks ++ [clinkCheck]
  let checks := checks ++ [tcpCheck]
  let checks := checks ++ [cdnintegrityCheck]
  let checks := checks ++ [dnsCheck]
  let checks := checks ++ [pingCheck]
  .ok { Name := hostname, Checks := checks }

end endpointdiscovery

/-! ## `v2_endpoint.go` -/

namespace api

/-- Go `getDefaultChecks` of package `api`. -/
def getDefaultChecks (hostname : String) : Except Error EndpointDTO :=
  match endpointdiscovery.NewEndpoint hostname with
  | .error err => .error err
  | .ok endpoint =>
  let checks : List Check := []
  let path := match endpoint.URL with
    | some u => u.Path
    | none => "/"
  let host := match endpoint.URL with
    | some u => u.String
    | none => hostname
  let httpCheck : Check :=
    { Type_ := "http", Frequency := 60,
      Settings := [("host", .str host), ("port", .int 80), ("path", .str path),
        ("method", .str "GET"), ("headers", .str "User-Agent: Mozilla/5.0\nAccept-Encoding: gzip\n"),
        ("timeout", .int 5), ("getall", .bool true)],
      Enabled := true }
  let httpsCheck : Check :=
    { Type_ := "https", Frequency := 60,
      Settings := [("host", .str host), ("port", .int 443), ("path", .str path),
        ("method", .str "GET"), ("headers", .str "User-Agent: Mozilla/5.0\nAccept-Encoding: gzip\n"),
        ("timeout", .int 5), ("getall", .bool true)],
      Enabled := true }
  let staticCheck : Check :=
    { Type_ := "static", Frequency := 60,
      Settings := [("host", .str host), ("method", .str "GET"),
        ("headers", .str "User-Agent: Mozilla/5.0\nAccept-Encoding: gzip\n"),
        ("timeout", .int 5), ("total", .int 5), ("getall", .bool true)],
      Enabled := false }
  let clinkCheck : Check :=
    { Type_ := "clink", Frequency := 1800,
      Settings := [("host", .str host), ("method", .str "GET"),
        ("headers", .str "User-Agent: Mozilla/5.0\nAccept-Encoding: gzip\n"),
        ("timeout", .int 5), ("total", .int 5), ("getall", .bool true)],
      Enabled := false }
  let cdnintegrityCheck : Check :=
    { Type_ := "cdnintegrity", Frequency := 1800,
      Settings := [("host", .str host),
        ("headers", .str "User-Agent: Mozilla/5.0\nAccept-Encoding: gzip\n"),
        ("numfile", .int 5), ("chunksize", .int 3145728)],
      Enabled := false }
  let dnsCheck : Check :=
    { Type_ := "dns", Frequency := 60,
      Settings := [("name", .str ""), ("type", .str ""), ("port", .int 53),
        ("server", .str ""), ("timeout", .int 5), ("protocol", .str "udp")],
      Enabled := false }
  let pingCheck : Check :=
    { Type_ := "ping", Frequency := 10,
      Settings := [("hostname", .str host), ("timeout", .int 5)],
      Enabled := false }
  let checks := checks ++ [httpCheck]
  let checks := checks ++ [httpsCheck]
  let checks := checks ++ [staticCheck]
  let checks := checks ++ [clinkCheck]
  let checks := checks ++ [cdnintegrityCheck]
  let checks := checks ++ [dnsCheck]
  let checks := checks ++ [pingCheck]
  .ok { Name := hostname, Checks := checks }

end api


/-! ## Specification-side definitions -/

open endpointdiscovery

/-- The IDs of the names that resolve, in the order of the names: the default
probe set as the specification describes it. -/
def resolvedIds (GetProbeByName : String → Int → Except Error ProbeDTO)
    (names : List String) : List Int :=
  names.filterMap (fun name =>
    match GetProbeByName name 1 with
    | .ok probe => some probe.Id
    | .error _ => none)

/-- The route that discovery attaches: by IDs, with the default probe set. -/
def defaultRoute (defaultProbes : List Int) : CheckRoute :=
  { Type_ := .RouteByIds, Config := [("ids", .int64s defaultProbes)] }

/-- A check without its routing and health metadata. -/
def Check.bare (c : Check) : Check := { c with Route := none, HealthSettings := none }

/-- The list that the specification relates `api.getDefaultChecks` to: the
checks of `GetDefaultChecks` without the tcp check, with the static check
disabled and all metadata removed. -/
def withoutMetadata (dto : EndpointDTO) : EndpointDTO :=
  { dto with
    Checks := (dto.Checks.filter (fun c => c.Type_ ≠ "tcp")).map (fun c =>
      { c.bare with Enabled := if c.Type_ = "static" then false else c.Enabled }) }

/-- The joined suffixes of a list of labels: all labels, then all but the
first, and so on down to the last label alone. -/
def labelSuffixes : List String → List String
  | [] => []
  | l :: ls => Join (l :: ls) "." :: labelSuffixes ls

/-- The suffixes of a host in the order of the walk: the full host, then the
host with its left-most dot-separated label removed, and so on. -/
def suffixes (host : String) : List String := labelSuffixes (Split host '.')

/-- The NS lookup of `domain` returns without error and with at least one record. -/
def answers (w : World) (domain : String) : Bool :=
  decide ((w.LookupNS domain).2 = none ∧ 1 ≤ (w.LookupNS domain).1.length)

/-- The `server` setting as the specification describes it: the NS hosts of the
first suffix that answers, without their trailing dot, joined with commas; the
fallback when no suffix answers. -/
def serverSpec (w : World) (host : String) : String :=
  match (suffixes host).find? (answers w) with
  | some d => Join ((w.LookupNS d).1.map (fun ns => TrimSuffix ns.Host ".")) ","
  | none => "8.8.8.8"

/-- The domains that a walk over `ds` asks about: up to and including the first
that answers. -/
def walked (w : World) : List String → List String
  | [] => []
  | d :: ds => if answers w d then [d] else d :: walked w ds

/-- The check type that each probe emits. -/
def endpointdiscovery.ProbeKind.typeName : ProbeKind → String
  | .ping => "ping"
  | .http => "http"
  | .https => "https"
  | .dns => "dns"

/-- The result of the probe function that the goroutine of a probe calls;
`none` when the call never returns. -/
def probeResult (w : World) (fuel : Nat) (endpoint : Endpoint) :
    ProbeKind → Option (Except Error Check)
  | .ping => some (DiscoverPing w endpoint)
  | .http => some (DiscoverHttp w endpoint)
  | .https => some (DiscoverHttps w endpoint)
  | .dns => DiscoverDNS w fuel endpoint

/-- The check of a probe that returned no error. -/
def okCheck : Option (Except Error Check) → Option Check
  | some (.ok c) => some c
  | _ => none

/-- The checks returned by the probes that returned no error, in the order in
which the source starts the probes. -/
def succeeded (w : World) (fuel : Nat) (endpoint : Endpoint) : List Check :=
  allProbes.filterMap (fun p => okCheck (probeResult w fuel endpoint p))

/-- The URL that `DiscoverHttp` requests. -/
def httpTarget (endpoint : Endpoint) : String :=
  match endpoint.URL with
  | some u => "http://" ++ (if u.Scheme = "http" then u.Host else endpoint.Host) ++ u.Path
  | none => "http://" ++ endpoint.Host ++ "/"

/-! ## Definitions used to state and prove the theorems -/

/-- A non-empty list of strings none of which contains a dot. -/
def IsLabels (ls : List String) : Prop := ls ≠ [] ∧ ∀ l ∈ ls, '.' ∉ l.data

/-- The value of `server` after a walk over `ds` that started with `server`. -/
def serverAfter (w : World) (server : String) (ds : List String) : String :=
  match ds.find? (answers w) with
  | some d => Join ((w.LookupNS d).1.map (fun ns => TrimSuffix ns.Host ".")) ","
  | none => server

/-- The check that `DiscoverDNS` builds once the loop has set `server`. -/
def dnsCheck (host server : String) : Check :=
  { Type_ := "dns", Frequency := 120,
    Settings := [("name", .str host), ("type", .str "A"), ("port", .int 53),
      ("server", .str server), ("timeout", .int 5), ("protocol", .str "udp")],
    Enabled := true }

/-- A network in which `sub.example.com` has no NS records and `example.com`
is served by `ns1.example.com` and `ns2.example.com`; nothing answers a ping or
an HTTP request. -/
def exampleWorld : World where
  ping := fun _ => false
  Head := fun _ => .error (.other "dial tcp: connection refused")
  LookupNS := fun domain =>
    if domain = "example.com" then ([⟨"ns1.example.com."⟩, ⟨"ns2.example.com."⟩], none)
    else ([], some (.other "no such host"))

/-- What the goroutine of a probe sends when it finishes. -/
def sent (w : World) (endpoint : Endpoint) : ProbeKind → Option Check
  | .ping => (DiscoverPing w endpoint).toOption
  | .http => (DiscoverHttp w endpoint).toOption
  | .https => (DiscoverHttps w endpoint).toOption
  | .dns =>
    if !endpoint.IsIP then some (dnsCheck endpoint.Host (serverSpec w endpoint.Host)) else none

/-- A network in which `example.com` answers a ping, redirects HTTP to HTTPS,
serves HTTPS on port 8443 and has two name servers. -/
def liveWorld : World where
  ping := fun host => host == "example.com"
  Head := fun url =>
    if url = "http://example.com/" then .ok ⟨"https", "www.example.com", "/"⟩
    else if url = "https://example.com/" then .ok ⟨"https", "www.example.com:8443", "/home"⟩
    else .error (.other "dial tcp: connection refused")
  LookupNS := fun domain =>
    if domain = "example.com" then ([⟨"ns1.example.com."⟩, ⟨"ns2.example.com."⟩], none)
    else ([], some (.other "no such host"))

/-- A network in which the IPv6 loopback address serves HTTP on port 8080 and
HTTPS on the default port. -/
def ipv6World : World where
  ping := fun _ => true
  Head := fun url =>
    if url = "http://[::1]:8080/" then .ok ⟨"http", "[::1]:8080", "/"⟩
    else if url = "https://[::1]/" then .ok ⟨"https", "[::1]", "/"⟩
    else .error (.other "dial tcp: connection refused")
  LookupNS := fun _ => ([], some (.other "no such host"))

/-- A network in which `http://example.com/` redirects to
`https://example.com/` and nothing else answers. -/
def redirectWorld : World where
  ping := fun _ => false
  Head := fun url =>
    if url = "http://example.com/" then .ok ⟨"https", "example.com", "/"⟩
    else .error (.other "dial tcp: connection refused")
  LookupNS := fun _ => ([], some (.other "no such host"))

/-- A storage in which `VNPT` is missing and every other name resolves. -/
def storageGaps (name : String) (_orgId : Int) : Except Error ProbeDTO :=
  if name = "VNPT_HN" then .ok ⟨11⟩
  else if name = "VNPT" then .error .ErrProbeNotFound
  else if name = "FPT" then .ok ⟨13⟩
  else if name = "VIETTEL" then .ok ⟨14⟩
  else if name = "THANHPV" then .ok ⟨15⟩
  else .ok ⟨16⟩

/-- A storage in which `VNPT` is missing and the lookup of `VIETTEL` breaks. -/
def storageBroken (name : String) (_orgId : Int) : Except Error ProbeDTO :=
  if name = "VNPT_HN" then .ok ⟨11⟩
  else if name = "VNPT" then .error .ErrProbeNotFound
  else if name = "FPT" then .ok ⟨13⟩
  else if name = "VIETTEL" then .error (.other "connection refused")
  else .ok ⟨16⟩

/-! ## Theorems -/

/-! ### `strings.Split` and `strings.Join` -/

theorem splitChars_ne_nil (sep : Char) (cs : List Char) : splitChars sep cs ≠ [] := by
  cases cs with
  | nil => simp [splitChars]
  | cons c cs =>
    by_cases h : c = sep
    · simp [splitChars, h]
    · cases hs : splitChars sep cs <;> simp [splitChars, h, hs]

theorem splitChars_cons_sep (sep : Char) (cs : List Char) :
    splitChars sep (sep :: cs) = [] :: splitChars sep cs := by
  simp [splitChars]

theorem splitChars_cons_ne (sep c : Char) (cs : List Char) (h : c ≠ sep) :
    ∃ p ps, splitChars sep cs = p :: ps ∧ splitChars sep (c :: cs) = (c :: p) :: ps := by
  cases hs : splitChars sep cs with
  | nil => exact absurd hs (splitChars_ne_nil sep cs)
  | cons p ps => exact ⟨p, ps, rfl, by simp [splitChars, h, hs]⟩

theorem splitChars_length (sep : Char) (cs : List Char) :
    (splitChars sep cs).length = cs.count sep + 1 := by
  induction cs with
  | nil => simp [splitChars]
  | cons c cs ih =>
    by_cases h : c = sep
    · subst h
      simp [splitChars_cons_sep, ih]
    · obtain ⟨p, ps, h1, h2⟩ := splitChars_cons_ne sep c cs h
      rw [h2, List.count_cons_of_ne (Ne.symm h), ← ih, h1]
      simp

theorem splitChars_no_sep (sep : Char) (cs : List Char) :
    ∀ p ∈ splitChars sep cs, sep ∉ p := by
  induction cs with
  | nil => simp [splitChars]
  | cons c cs ih =>
    by_cases h : c = sep
    · subst h
      intro p hp
      rw [splitChars_cons_sep] at hp
      rcases List.mem_cons.mp hp with rfl | hp
      · simp
      · exact ih p hp
    · obtain ⟨q, qs, h1, h2⟩ := splitChars_cons_ne sep c cs h
      intro p hp
      rw [h2] at hp
      rw [h1] at ih
      rcases List.mem_cons.mp hp with rfl | hp
      · intro hmem
        rcases List.mem_cons.mp hmem with heq | hmem
        · exact h heq.symm
        · exact ih q (List.mem_cons_self _ _) hmem
      · exact ih p (List.mem_cons_of_mem _ hp)

theorem joinChars_cons_cons (sep : List Char) (c : Char) (p : List Char)
    (ps : List (List Char)) :
    joinChars sep ((c :: p) :: ps) = c :: joinChars sep (p :: ps) := by
  cases ps <;> simp [joinChars]

theorem joinChars_splitChars (sep : Char) (cs : List Char) :
    joinChars [sep] (splitChars sep cs) = cs := by
  induction cs with
  | nil => simp [splitChars, joinChars]
  | cons c cs ih =>
    by_cases h : c = sep
    · rw [h, splitChars_cons_sep]
      cases hs : splitChars sep cs with
      | nil => exact absurd hs (splitChars_ne_nil _ cs)
      | cons p ps =>
        rw [hs] at ih
        simp [joinChars, ih]
    · obtain ⟨p, ps, h1, h2⟩ := splitChars_cons_ne sep c cs h
      rw [h2, joinChars_cons_cons, ← h1, ih]

theorem splitChars_of_no_sep (sep : Char) (p : List Char) (hp : sep ∉ p) :
    splitChars sep p = [p] := by
  induction p with
  | nil => simp [splitChars]
  | cons c p ih =>
    have hc : c ≠ sep := fun h => hp (h ▸ List.mem_cons_self _ _)
    have hp2 : sep ∉ p := fun h => hp (List.mem_cons_of_mem _ h)
    simp [splitChars, hc, ih hp2]

theorem splitChars_append_sep (sep : Char) (p cs : List Char) (hp : sep ∉ p) :
    splitChars sep (p ++ sep :: cs) = p :: splitChars sep cs := by
  induction p with
  | nil => simp [splitChars]
  | cons c p ih =>
    have hc : c ≠ sep := fun h => hp (h ▸ List.mem_cons_self _ _)
    have hp2 : sep ∉ p := fun h => hp (List.mem_cons_of_mem _ h)
    simp [splitChars, hc, ih hp2]

theorem splitChars_joinChars (sep : Char) (ls : List (List Char)) (hne : ls ≠ [])
    (hls : ∀ l ∈ ls, sep ∉ l) : splitChars sep (joinChars [sep] ls) = ls := by
  induction ls with
  | nil => exact absurd rfl hne
  | cons p rest ih =>
    cases rest with
    | nil => simpa [joinChars] using splitChars_of_no_sep sep p (hls p (List.mem_cons_self _ _))
    | cons q rest =>
      have hp : sep ∉ p := hls p (List.mem_cons_self _ _)
      have hrest : ∀ l ∈ q :: rest, sep ∉ l := fun l hl => hls l (List.mem_cons_of_mem _ hl)
      have := ih (by simp) hrest
      simp only [joinChars, List.append_assoc, List.singleton_append]
      rw [splitChars_append_sep sep p _ hp, this]

theorem Split_length (s : String) : (Split s '.').length = dots s + 1 := by
  simp [Split, dots, splitChars_length]

theorem Split_isLabels (s : String) : IsLabels (Split s '.') := by
  constructor
  · simp [Split, splitChars_ne_nil]
  · intro l hl
    simp only [Split, List.mem_map] at hl
    obtain ⟨p, hp, rfl⟩ := hl
    exact splitChars_no_sep '.' s.data p hp

theorem Join_Split (s : String) : Join (Split s '.') "." = s := by
  have h : (".".data : List Char) = ['.'] := rfl
  simp only [Join, Split, List.map_map, h]
  have : (String.data ∘ String.mk) = id := by funext l; rfl
  rw [this, List.map_id, joinChars_splitChars]

theorem Split_Join (ls : List String) (h : IsLabels ls) : Split (Join ls ".") '.' = ls := by
  have hd : (".".data : List Char) = ['.'] := rfl
  simp only [Join, Split, hd]
  rw [splitChars_joinChars '.' (ls.map String.data) (by simpa using h.1)
    (by
      intro l hl
      obtain ⟨s, hs, rfl⟩ := List.mem_map.mp hl
      exact h.2 s hs)]
  rw [List.map_map]
  have : (String.mk ∘ String.data) = id := by funext l; rfl
  rw [this, List.map_id]

theorem IsLabels_tail (l : String) (ls : List String) (h : IsLabels (l :: ls)) (hne : ls ≠ []) :
    IsLabels ls :=
  ⟨hne, fun x hx => h.2 x (List.mem_cons_of_mem _ hx)⟩

/-! ### The loop of `DiscoverDNS` -/

theorem nsLoop_step_answer (w : World) (fuel : Nat) (domain server : String)
    (lk : List String) (h : answers w domain = true) :
    nsLoop w (fuel + 1) domain server lk =
      some ⟨Join ((w.LookupNS domain).1.map (fun ns => TrimSuffix ns.Host ".")) ",",
        lk ++ [domain]⟩ := by
  rcases hL : w.LookupNS domain with ⟨nss, err⟩
  simp only [answers, hL, decide_eq_true_eq] at h
  have hc : ¬ (err ≠ none ∨ nss.length < 1) := by
    rintro (h1 | h1)
    · exact h1 h.1
    · omega
  simp only [nsLoop, hL]
  rw [if_neg hc]

theorem nsLoop_step_silent (w : World) (fuel : Nat) (domain server : String)
    (lk : List String) (h : answers w domain = false) :
    nsLoop w (fuel + 1) domain server lk =
      if (Split domain '.').length < 2 then some ⟨server, lk ++ [domain]⟩
      else nsLoop w fuel (Join ((Split domain '.').drop 1) ".") server (lk ++ [domain]) := by
  rcases hL : w.LookupNS domain with ⟨nss, err⟩
  simp only [answers, hL, decide_eq_false_iff_not, not_and_or] at h
  have hc : err ≠ none ∨ nss.length < 1 := by
    rcases h with h1 | h1
    · exact Or.inl h1
    · exact Or.inr (by omega)
  simp only [nsLoop, hL]
  rw [if_pos hc]

theorem nsLoop_labels (w : World) (ls : List String) :
    IsLabels ls → ∀ (fuel : Nat), ls.length ≤ fuel → ∀ (server : String) (lk : List String),
      nsLoop w fuel (Join ls ".") server lk =
        some ⟨serverAfter w server (labelSuffixes ls), lk ++ walked w (labelSuffixes ls)⟩ := by
  induction ls with
  | nil => intro h; exact absurd rfl h.1
  | cons l rest ih =>
    intro hlab fuel hfuel server lk
    obtain ⟨f, rfl⟩ : ∃ f, fuel = f + 1 := ⟨fuel - 1, by simp at hfuel; omega⟩
    cases hans : answers w (Join (l :: rest) ".") with
    | true =>
      rw [nsLoop_step_answer w f _ server lk hans]
      simp [serverAfter, labelSuffixes, walked, hans]
    | false =>
      rw [nsLoop_step_silent w f _ server lk hans, Split_Join _ hlab]
      cases rest with
      | nil => simp [serverAfter, labelSuffixes, walked, hans]
      | cons q r =>
        have hlen : ¬ (l :: q :: r).length < 2 := by simp
        rw [if_neg hlen]
        have hf : (q :: r).length ≤ f := by simp at hfuel ⊢; omega
        have := ih (IsLabels_tail l (q :: r) hlab (by simp)) f hf server (lk ++ [Join (l :: q :: r) "."])
        simp only [List.drop_succ_cons, List.drop_zero]
        rw [this]
        simp [serverAfter, labelSuffixes, walked, hans]

theorem walked_length_le (w : World) (ds : List String) : (walked w ds).length ≤ ds.length := by
  induction ds with
  | nil => simp [walked]
  | cons d ds ih =>
    by_cases h : answers w d = true
    · simp [walked, h]
    · simp only [walked, h]
      simp only [Bool.false_eq_true, if_false, List.length_cons]
      omega

theorem labelSuffixes_length (ls : List String) : (labelSuffixes ls).length = ls.length := by
  induction ls with
  | nil => rfl
  | cons l ls ih => simp [labelSuffixes, ih]

theorem suffixes_length (host : String) : (suffixes host).length = dots host + 1 := by
  rw [suffixes, labelSuffixes_length, Split_length]

/-- With more fuel than the host has dots, the loop of `DiscoverDNS` ends. -/
theorem nsLoop_host (w : World) (fuel : Nat) (host : String) (hfuel : dots host < fuel) :
    nsLoop w fuel host "8.8.8.8" [] =
      some ⟨serverSpec w host, walked w (suffixes host)⟩ := by
  have h := nsLoop_labels w (Split host '.') (Split_isLabels host) fuel
    (by rw [Split_length]; omega) "8.8.8.8" []
  rw [Join_Split] at h
  rw [h]
  simp [serverSpec, serverAfter, suffixes]

theorem DiscoverDNS_eq (w : World) (fuel : Nat) (endpoint : Endpoint)
    (hfuel : dots endpoint.Host < fuel) :
    DiscoverDNS w fuel endpoint =
      some (.ok (dnsCheck endpoint.Host (serverSpec w endpoint.Host))) := by
  simp only [DiscoverDNS, nsLoop_host w fuel endpoint.Host hfuel, dnsCheck]

/-- C3: with enough fuel for the walk, `DiscoverDNS` returns a check whose
`server` setting is the one the specification describes: the NS hosts, without
trailing dot and joined by commas, of the first suffix of the host whose lookup
returns no error and at least one record, and `8.8.8.8` when no suffix answers;
the lookups are made in the order of the suffixes. In particular the host
`sub.example.com` without NS records under `example.com` with the records
`ns1.example.com`, `ns2.example.com` gets `ns1.example.com,ns2.example.com`. -/
theorem DiscoverDNS_server (w : World) (fuel : Nat) (endpoint : Endpoint)
    (hfuel : dots endpoint.Host < fuel) :
    (∃ check, DiscoverDNS w fuel endpoint = some (.ok check) ∧
      check.Settings.get "server" = some (.str (serverSpec w endpoint.Host))) ∧
    (∃ walk, nsLoop w fuel endpoint.Host "8.8.8.8" [] = some walk ∧
      walk.lookups = walked w (suffixes endpoint.Host)) ∧
    ((∀ d ∈ suffixes endpoint.Host, answers w d = false) →
      serverSpec w endpoint.Host = "8.8.8.8") ∧
    (endpoint.Host = "sub.example.com" → answers w "sub.example.com" = false →
      (w.LookupNS "example.com").2 = none →
      (w.LookupNS "example.com").1.map (fun ns => TrimSuffix ns.Host ".") =
        ["ns1.example.com", "ns2.example.com"] →
      serverSpec w endpoint.Host = "ns1.example.com,ns2.example.com") := by
  have hloop := nsLoop_host w fuel endpoint.Host hfuel
  refine ⟨⟨_, DiscoverDNS_eq w fuel endpoint hfuel, rfl⟩, ⟨_, hloop, rfl⟩, ?_, ?_⟩
  · intro hnone
    have : (suffixes endpoint.Host).find? (answers w) = none := by
      rw [List.find?_eq_none]
      intro d hd
      simp [hnone d hd]
    simp [serverSpec, this]
  · intro hhost hsub herr hrec
    have hsuf : suffixes "sub.example.com" = ["sub.example.com", "example.com", "com"] := by
      decide
    have hans : answers w "example.com" = true := by
      have hlen : ((w.LookupNS "example.com").1.map (fun ns => TrimSuffix ns.Host ".")).length
          = 2 := by rw [hrec]; rfl
      rw [List.length_map] at hlen
      simp [answers, herr, hlen]
    have hfind : (suffixes "sub.example.com").find? (answers w) = some "example.com" := by
      rw [hsuf, List.find?_cons_of_neg _ (by simp [hsub]), List.find?_cons_of_pos _ hans]
    rw [hhost, serverSpec, hfind]
    simp only [hrec]
    decide

theorem DiscoverDNS_server_witness :
    dots "sub.example.com" < 3 ∧
    (∃ check, DiscoverDNS exampleWorld 3 { Host := "sub.example.com" } = some (.ok check) ∧
      check.Settings.get "server" = some (.str "ns1.example.com,ns2.example.com")) := by
  refine ⟨by decide, ?_⟩
  obtain ⟨check, h1, h2⟩ :=
    (DiscoverDNS_server exampleWorld 3 { Host := "sub.example.com" } (by decide)).1
  exact ⟨check, h1, by rw [h2]; decide⟩

/-- C4: with more fuel than the host has dots the loop of `DiscoverDNS` ends
after at most (number of dots) + 1 lookups, whatever the lookups return, and
`DiscoverDNS` returns no error but a check of type `dns` with frequency 120,
enabled, whose settings are name = the original host, type = `A`, port = 53,
timeout = 5 and protocol = `udp`. -/
theorem DiscoverDNS_always_emits (w : World) (fuel : Nat) (endpoint : Endpoint)
    (hfuel : dots endpoint.Host < fuel) :
    ∃ walk check, nsLoop w fuel endpoint.Host "8.8.8.8" [] = some walk ∧
      walk.lookups.length ≤ dots endpoint.Host + 1 ∧
      DiscoverDNS w fuel endpoint = some (.ok check) ∧
      check.Type_ = "dns" ∧ check.Frequency = 120 ∧ check.Enabled = true ∧
      check.Settings.map Prod.fst = ["name", "type", "port", "server", "timeout", "protocol"] ∧
      check.Settings.get "name" = some (.str endpoint.Host) ∧
      check.Settings.get "type" = some (.str "A") ∧
      check.Settings.get "port" = some (.int 53) ∧
      check.Settings.get "timeout" = some (.int 5) ∧
      check.Settings.get "protocol" = some (.str "udp") := by
  have hloop := nsLoop_host w fuel endpoint.Host hfuel
  refine ⟨_, _, hloop, ?_, DiscoverDNS_eq w fuel endpoint hfuel, rfl, rfl, rfl, rfl, rfl, rfl,
    rfl, rfl, rfl⟩
  calc (walked w (suffixes endpoint.Host)).length
      ≤ (suffixes endpoint.Host).length := walked_length_le w _
    _ = dots endpoint.Host + 1 := suffixes_length _

theorem DiscoverDNS_always_emits_witness :
    dots "nowhere.invalid" < 2 ∧
    ∃ check, DiscoverDNS exampleWorld 2 { Host := "nowhere.invalid" } = some (.ok check) ∧
      check.Type_ = "dns" ∧ check.Enabled = true ∧
      check.Settings.get "name" = some (.str "nowhere.invalid") ∧
      check.Settings.get "server" = some (.str "8.8.8.8") := by
  refine ⟨by decide, ?_⟩
  obtain ⟨walk, check, _, _, h, ht, _, he, _, hn, _⟩ :=
    DiscoverDNS_always_emits exampleWorld 2 { Host := "nowhere.invalid" } (by decide)
  refine ⟨check, h, ht, he, hn, ?_⟩
  have hd : DiscoverDNS exampleWorld 2 { Host := "nowhere.invalid" } = some (.ok
      { Type_ := "dns", Frequency := 120,
        Settings := [("name", .str "nowhere.invalid"), ("type", .str "A"),
          ("port", .int 53), ("server", .str "8.8.8.8"),
          ("timeout", .int 5), ("protocol", .str "udp")],
        Enabled := true }) := rfl
  rw [hd] at h
  injection h with h
  injection h with h
  rw [← h]
  decide

/-! ### `Discover` -/

theorem goroutine_eq (w : World) (fuel : Nat) (endpoint : Endpoint)
    (hfuel : dots endpoint.Host < fuel) (p : ProbeKind) :
    goroutine w fuel endpoint p = some (sent w endpoint p) := by
  cases p with
  | ping => simp only [goroutine, sent]; cases DiscoverPing w endpoint <;> rfl
  | http => simp only [goroutine, sent]; cases DiscoverHttp w endpoint <;> rfl
  | https => simp only [goroutine, sent]; cases DiscoverHttps w endpoint <;> rfl
  | dns =>
    simp only [goroutine, sent, DiscoverDNS_eq w fuel endpoint hfuel]
    cases endpoint.IsIP <;> rfl

theorem received_eq (w : World) (fuel : Nat) (endpoint : Endpoint)
    (hfuel : dots endpoint.Host < fuel) (sched : List ProbeKind) :
    received w fuel endpoint sched = some (sched.filterMap (sent w endpoint)) := by
  induction sched with
  | nil => rfl
  | cons p ps ih =>
    simp only [received, goroutine_eq w fuel endpoint hfuel p, ih]
    cases h : sent w endpoint p <;> simp [List.filterMap_cons, h]

theorem stamp_loop (defaultProbes : List Int) (cs : List Check) :
    ∀ acc : List Check,
      cs.foldl (fun checks c => checks ++ [stamp defaultProbes c]) acc =
        acc ++ cs.map (stamp defaultProbes) := by
  induction cs with
  | nil => intro acc; simp
  | cons c cs ih => intro acc; simp [ih]

theorem Discover_eq (w : World) (defaultProbes : List Int) (sched : List ProbeKind)
    (fuel : Nat) (hostname : String) (hfuel : dots hostname < fuel) :
    Discover w defaultProbes sched fuel hostname =
      some (.ok { Name := hostname,
                  Checks := (sched.filterMap (sent w { Host := hostname })).map
                    (stamp defaultProbes) }) := by
  have h := received_eq w fuel { Host := hostname } hfuel sched
  simp only [Discover, NewEndpoint, h, stamp_loop, List.nil_append]

theorem Discover_checks_stamped (w : World) (defaultProbes : List Int) (sched : List ProbeKind)
    (fuel : Nat) (hostname : String) (dto : EndpointDTO)
    (h : Discover w defaultProbes sched fuel hostname = some (.ok dto)) :
    ∃ cs : List Check, dto.Checks = cs.map (stamp defaultProbes) := by
  simp only [Discover, NewEndpoint] at h
  cases hr : received w fuel { Host := hostname } sched with
  | none => simp [hr] at h
  | some cs =>
    simp only [hr, stamp_loop, List.nil_append, Option.some.injEq, Except.ok.injEq] at h
    exact ⟨cs, by rw [← h]⟩

theorem sent_type (w : World) (endpoint : Endpoint) (p : ProbeKind) (c : Check)
    (h : sent w endpoint p = some c) :
    c.Type_ = p.typeName ∧ c.bare = c := by
  cases p with
  | ping =>
    simp only [sent, DiscoverPing] at h
    split at h
    · simp [Except.toOption] at h
    · simp only [Except.toOption, Option.some.injEq] at h
      subst h
      exact ⟨rfl, rfl⟩
  | http =>
    simp only [sent, DiscoverHttp] at h
    split at h
    · simp [Except.toOption] at h
    · split at h
      · simp [Except.toOption] at h
      · simp only [Except.toOption, Option.some.injEq] at h
        subst h
        exact ⟨rfl, rfl⟩
  | https =>
    simp only [sent, DiscoverHttps] at h
    split at h
    · simp [Except.toOption] at h
    · simp only [Except.toOption, Option.some.injEq] at h
      subst h
      exact ⟨rfl, rfl⟩
  | dns =>
    simp only [sent] at h
    split at h
    · simp only [Option.some.injEq] at h
      subst h
      exact ⟨rfl, rfl⟩
    · simp at h

theorem sent_eq_okCheck (w : World) (fuel : Nat) (hostname : String)
    (hfuel : dots hostname < fuel) (p : ProbeKind) :
    sent w { Host := hostname } p = okCheck (probeResult w fuel { Host := hostname } p) := by
  cases p with
  | ping => simp only [sent, probeResult]; cases DiscoverPing w { Host := hostname } <;> rfl
  | http => simp only [sent, probeResult]; cases DiscoverHttp w { Host := hostname } <;> rfl
  | https => simp only [sent, probeResult]; cases DiscoverHttps w { Host := hostname } <;> rfl
  | dns =>
    have h := DiscoverDNS_eq w fuel { Host := hostname } hfuel
    simp only [sent, probeResult, h, okCheck]
    rfl

theorem stamp_route_health (defaultProbes : List Int) (c : Check) :
    (stamp defaultProbes c).Route = some (defaultRoute defaultProbes) ∧
    (stamp defaultProbes c).HealthSettings = some { NumProbes := 1, Steps := 1 } ∧
    (stamp defaultProbes c).Type_ = c.Type_ ∧
    (stamp defaultProbes c).bare = c.bare :=
  ⟨rfl, rfl, rfl, rfl⟩

/-- C1: whatever the hostname, the default probe set, the outcomes of the
probes and the order in which they finish, every check of the list that
`Discover` returns has a non-nil `Route` of type `RouteByIds` whose config maps
`ids` to the default probe list, and `HealthSettings` equal to `{1, 1}`; and
with enough fuel for the DNS walk `Discover` does return a list. -/
theorem Discover_route_health (w : World) (defaultProbes : List Int) (sched : List ProbeKind)
    (fuel : Nat) (hostname : String) :
    (dots hostname < fuel →
      ∃ dto, Discover w defaultProbes sched fuel hostname = some (.ok dto)) ∧
    ∀ dto, Discover w defaultProbes sched fuel hostname = some (.ok dto) →
      ∀ c ∈ dto.Checks,
        (∃ r, c.Route = some r ∧ r.Type_ = RouteType.RouteByIds ∧
          r.Config = [("ids", .int64s defaultProbes)] ∧
          r.Config.get "ids" = some (.int64s defaultProbes)) ∧
        c.HealthSettings = some { NumProbes := 1, Steps := 1 } := by
  refine ⟨fun hfuel => ⟨_, Discover_eq w defaultProbes sched fuel hostname hfuel⟩, ?_⟩
  intro dto h c hc
  obtain ⟨cs, hcs⟩ := Discover_checks_stamped w defaultProbes sched fuel hostname dto h
  rw [hcs] at hc
  obtain ⟨c', _, rfl⟩ := List.mem_map.mp hc
  exact ⟨⟨_, rfl, rfl, rfl, rfl⟩, rfl⟩

theorem Discover_route_health_witness :
    ∃ dto, Discover liveWorld [7, 9] [.dns, .https, .ping, .http] 2 "example.com" =
        some (.ok dto) ∧
      dto.Checks.map (fun c => c.Type_) = ["dns", "https", "ping"] ∧
      ∀ c ∈ dto.Checks,
        c.Route = some { Type_ := .RouteByIds, Config := [("ids", .int64s [7, 9])] } ∧
        c.HealthSettings = some { NumProbes := 1, Steps := 1 } := by
  have h := Discover_route_health liveWorld [7, 9] [.dns, .https, .ping, .http] 2 "example.com"
  obtain ⟨dto, hdto⟩ := h.1 (by decide)
  refine ⟨dto, hdto, ?_, ?_⟩
  · have hd : Discover liveWorld [7, 9] [.dns, .https, .ping, .http] 2 "example.com" =
        some (.ok { Name := "example.com",
                    Checks := ([ProbeKind.dns, .https, .ping, .http].filterMap
                      (sent liveWorld { Host := "example.com" })).map (stamp [7, 9]) }) :=
      Discover_eq liveWorld [7, 9] _ 2 "example.com" (by decide)
    rw [hd] at hdto
    injection hdto with hdto
    injection hdto with hdto
    rw [← hdto]
    decide
  · intro c hc
    obtain ⟨⟨r, hr, _, hcfg, _⟩, hh⟩ := h.2 dto hdto c hc
    refine ⟨?_, hh⟩
    rw [hr]
    cases r
    simp_all

theorem succeeded_eq (w : World) (fuel : Nat) (hostname : String)
    (hfuel : dots hostname < fuel) :
    succeeded w fuel { Host := hostname } = allProbes.filterMap (sent w { Host := hostname }) := by
  have : (fun p => okCheck (probeResult w fuel { Host := hostname } p)) =
      sent w { Host := hostname } := by
    funext p
    exact (sent_eq_okCheck w fuel hostname hfuel p).symm
  rw [succeeded, this]

theorem bare_stamp_sent (w : World) (endpoint : Endpoint) (defaultProbes : List Int)
    (ps : List ProbeKind) :
    ((ps.filterMap (sent w endpoint)).map (stamp defaultProbes)).map Check.bare =
      ps.filterMap (sent w endpoint) := by
  rw [List.map_map]
  conv_rhs => rw [← List.map_id (ps.filterMap (sent w endpoint))]
  apply List.map_congr_left
  intro c hc
  obtain ⟨p, _, hp⟩ := List.mem_filterMap.mp hc
  exact (sent_type w endpoint p c hp).2

theorem count_type_sent (w : World) (endpoint : Endpoint) (defaultProbes : List Int)
    (p : ProbeKind) :
    (((allProbes.filterMap (sent w endpoint)).map (stamp defaultProbes)).filter
      (fun c => c.Type_ = p.typeName)).length =
      if (sent w endpoint p).isSome then 1 else 0 := by
  have t1 : ∀ c, sent w endpoint .ping = some c → c.Type_ = "ping" :=
    fun c h => (sent_type w endpoint .ping c h).1
  have t2 : ∀ c, sent w endpoint .http = some c → c.Type_ = "http" :=
    fun c h => (sent_type w endpoint .http c h).1
  have t3 : ∀ c, sent w endpoint .https = some c → c.Type_ = "https" :=
    fun c h => (sent_type w endpoint .https c h).1
  have t4 : ∀ c, sent w endpoint .dns = some c → c.Type_ = "dns" :=
    fun c h => (sent_type w endpoint .dns c h).1
  cases h1 : sent w endpoint .ping <;> cases h2 : sent w endpoint .http <;>
    cases h3 : sent w endpoint .https <;> cases h4 : sent w endpoint .dns <;>
    cases p <;>
    simp_all [allProbes, List.filterMap_cons, List.filter_cons, stamp, ProbeKind.typeName]

/-- C2: for every hostname, every outcome of the four probes and every order in
which they finish, `Discover` (with enough fuel for the DNS walk) returns no
error and an `EndpointDTO` named after the hostname whose checks are, up to
order, the checks of the probes that returned no error, each with its route and
health settings assigned: one check of a probe's type when the probe succeeded,
none when it failed, so no ping check when the ping command fails. -/
theorem Discover_collects (w : World) (defaultProbes : List Int) (sched : List ProbeKind)
    (fuel : Nat) (hostname : String) (hsched : sched.Perm allProbes)
    (hfuel : dots hostname < fuel) :
    ∃ dto, Discover w defaultProbes sched fuel hostname = some (.ok dto) ∧
      dto.Name = hostname ∧
      dto.Checks.Perm ((succeeded w fuel { Host := hostname }).map (stamp defaultProbes)) ∧
      (dto.Checks.map Check.bare).Perm (succeeded w fuel { Host := hostname }) ∧
      (∀ p : ProbeKind, (dto.Checks.filter (fun c => c.Type_ = p.typeName)).length =
        if (okCheck (probeResult w fuel { Host := hostname } p)).isSome then 1 else 0) ∧
      (w.ping hostname = false → ∀ c ∈ dto.Checks, c.Type_ ≠ "ping") := by
  have hperm : ((sched.filterMap (sent w { Host := hostname })).map (stamp defaultProbes)).Perm
      ((allProbes.filterMap (sent w { Host := hostname })).map (stamp defaultProbes)) :=
    (hsched.filterMap _).map _
  have hcount : ∀ p : ProbeKind,
      (((sched.filterMap (sent w { Host := hostname })).map (stamp defaultProbes)).filter
        (fun c => c.Type_ = p.typeName)).length =
      if (okCheck (probeResult w fuel { Host := hostname } p)).isSome then 1 else 0 := by
    intro p
    rw [(hperm.filter _).length_eq, count_type_sent, sent_eq_okCheck w fuel hostname hfuel p]
  refine ⟨_, Discover_eq w defaultProbes sched fuel hostname hfuel, rfl, ?_, ?_, hcount, ?_⟩
  · rw [succeeded_eq w fuel hostname hfuel]
    exact hperm
  · rw [succeeded_eq w fuel hostname hfuel, bare_stamp_sent]
    exact hsched.filterMap _
  · intro hping c hc hty
    have h0 := hcount .ping
    have hfail : okCheck (probeResult w fuel { Host := hostname } .ping) = none := by
      simp [probeResult, DiscoverPing, hping, okCheck]
    rw [hfail] at h0
    simp only [Option.isSome_none, Bool.false_eq_true, if_false, List.length_eq_zero] at h0
    have hmem : c ∈ ((sched.filterMap (sent w { Host := hostname })).map
        (stamp defaultProbes)).filter (fun c => c.Type_ = ProbeKind.ping.typeName) :=
      List.mem_filter.mpr ⟨hc, by simpa [ProbeKind.typeName] using hty⟩
    rw [h0] at hmem
    exact List.not_mem_nil _ hmem

theorem Discover_collects_witness :
    [ProbeKind.dns, .https, .ping, .http].Perm allProbes ∧ dots "example.com" < 2 ∧
    ∃ dto, Discover liveWorld [7, 9] [.dns, .https, .ping, .http] 2 "example.com" =
        some (.ok dto) ∧
      dto.Name = "example.com" ∧
      dto.Checks.Perm ((succeeded liveWorld 2 { Host := "example.com" }).map (stamp [7, 9])) ∧
      (dto.Checks.map Check.bare).Perm (succeeded liveWorld 2 { Host := "example.com" }) := by
  refine ⟨by decide, by decide, ?_⟩
  obtain ⟨dto, h1, h2, h3, h4, _⟩ :=
    Discover_collects liveWorld [7, 9] [.dns, .https, .ping, .http] 2 "example.com"
      (by decide) (by decide)
  exact ⟨dto, h1, h2, h3, h4⟩

theorem serverSpec_fallback (w : World) (host : String)
    (hns : ∀ d ∈ suffixes host, answers w d = false) : serverSpec w host = "8.8.8.8" := by
  have : (suffixes host).find? (answers w) = none := by
    rw [List.find?_eq_none]
    intro d hd
    simp [hns d hd]
  simp [serverSpec, this]

/-- C5, as amended: for a hostname that is unreachable on every protocol (the
ping command fails, both HEAD requests fail and no suffix of the host has name
servers) `Discover` returns no error and an `EndpointDTO` with exactly one
check: the dns check for the hostname with the fallback server `8.8.8.8`, with
its route and health settings assigned. -/
theorem Discover_unreachable (w : World) (defaultProbes : List Int) (sched : List ProbeKind)
    (fuel : Nat) (hostname : String) (hsched : sched.Perm allProbes)
    (hfuel : dots hostname < fuel) (hping : w.ping hostname = false)
    (hhttp : ∃ err, w.Head ("http://" ++ hostname ++ "/") = .error err)
    (hhttps : ∃ err, w.Head ("https://" ++ hostname ++ "/") = .error err)
    (hns : ∀ d ∈ suffixes hostname, answers w d = false) :
    Discover w defaultProbes sched fuel hostname =
      some (.ok { Name := hostname,
                  Checks := [stamp defaultProbes (dnsCheck hostname "8.8.8.8")] }) := by
  obtain ⟨e1, he1⟩ := hhttp
  obtain ⟨e2, he2⟩ := hhttps
  have hall : allProbes.filterMap (sent w { Host := hostname }) =
      [dnsCheck hostname "8.8.8.8"] := by
    simp [allProbes, List.filterMap_cons, sent, DiscoverPing, DiscoverHttp, DiscoverHttps,
      hping, he1, he2, Except.toOption, serverSpec_fallback w hostname hns]
  have hperm := hsched.filterMap (sent w { Host := hostname })
  rw [hall] at hperm
  rw [Discover_eq w defaultProbes sched fuel hostname hfuel, List.perm_singleton.mp hperm]
  rfl

theorem Discover_unreachable_witness :
    [ProbeKind.http, .dns, .ping, .https].Perm allProbes ∧ dots "nowhere.invalid" < 2 ∧
    Discover exampleWorld [7, 9] [.http, .dns, .ping, .https] 2 "nowhere.invalid" =
      some (.ok { Name := "nowhere.invalid",
                  Checks := [stamp [7, 9] (dnsCheck "nowhere.invalid" "8.8.8.8")] }) :=
  ⟨by decide, by decide,
    Discover_unreachable exampleWorld [7, 9] [.http, .dns, .ping, .https] 2 "nowhere.invalid"
      (by decide) (by decide) rfl ⟨_, rfl⟩ ⟨_, rfl⟩ (by decide)⟩

/-- C5 as stated fails: in a network in which nothing answers, `Discover` on
`nowhere.invalid` returns a list that is not empty; it holds the dns check. -/
theorem unreachable_host_keeps_dns_check :
    exampleWorld.ping "nowhere.invalid" = false ∧
    exampleWorld.Head "http://nowhere.invalid/" = .error (.other "dial tcp: connection refused") ∧
    exampleWorld.Head "https://nowhere.invalid/" = .error (.other "dial tcp: connection refused") ∧
    (∀ d ∈ suffixes "nowhere.invalid", answers exampleWorld d = false) ∧
    ∃ dto, Discover exampleWorld [] allProbes 2 "nowhere.invalid" = some (.ok dto) ∧
      dto.Checks.map (fun c => c.Type_) = ["dns"] ∧ dto.Checks ≠ [] := by
  refine ⟨rfl, rfl, rfl, by decide, _, rfl, ?_, ?_⟩ <;> decide

/-! ### `DiscoverHttp` and `DiscoverHttps` -/

theorem DiscoverHttp_unfold (w : World) (endpoint : Endpoint) :
    DiscoverHttp w endpoint =
      match w.Head (httpTarget endpoint) with
      | .error err => .error err
      | .ok requestUrl =>
        if requestUrl.Scheme ≠ "http" then .error (.other "HTTP redirects to HTTPS")
        else
          .ok { Type_ := "http", Frequency := 120,
                Settings := [("host", .str (hostPort requestUrl.Host 80).1),
                  ("port", .int64 (hostPort requestUrl.Host 80).2),
                  ("path", .str requestUrl.Path), ("method", .str "GET"),
                  ("headers", .str "User-Agent: worldping-api\nAccept-Encoding: gzip\n"),
                  ("timeout", .int 5)],
                Enabled := true } := by
  cases h : endpoint.URL <;> simp [DiscoverHttp, httpTarget, h]

/-- C6: when the HEAD request of `DiscoverHttp` completes without a transport
error, `DiscoverHttp` returns an error exactly when the scheme of the final
request URL is not `http`, and that error is `HTTP redirects to HTTPS`;
so when `http://host/` ends at a URL of another scheme, the list that `Discover`
returns for `host` has no check of type `http`, whatever the other probes do. -/
theorem DiscoverHttp_redirect (w : World) (endpoint : Endpoint) (requestUrl : URL)
    (hhead : w.Head (httpTarget endpoint) = .ok requestUrl) :
    ((∃ err, DiscoverHttp w endpoint = .error err) ↔ requestUrl.Scheme ≠ "http") ∧
    (requestUrl.Scheme ≠ "http" →
      DiscoverHttp w endpoint = .error (.other "HTTP redirects to HTTPS")) ∧
    (∀ (defaultProbes : List Int) (sched : List ProbeKind) (fuel : Nat) (hostname : String),
      endpoint = { Host := hostname } → dots hostname < fuel → requestUrl.Scheme ≠ "http" →
      ∃ dto, Discover w defaultProbes sched fuel hostname = some (.ok dto) ∧
        ∀ c ∈ dto.Checks, c.Type_ ≠ "http") := by
  have hunf := DiscoverHttp_unfold w endpoint
  rw [hhead] at hunf
  have herr : requestUrl.Scheme ≠ "http" →
      DiscoverHttp w endpoint = .error (.other "HTTP redirects to HTTPS") := by
    intro hs
    rw [hunf]
    simp [hs]
  refine ⟨⟨?_, fun hs => ⟨_, herr hs⟩⟩, herr, ?_⟩
  · rintro ⟨err, he⟩ hs
    rw [hunf] at he
    simp [hs] at he
  · intro defaultProbes sched fuel hostname hep hfuel hs
    subst hep
    refine ⟨_, Discover_eq w defaultProbes sched fuel hostname hfuel, ?_⟩
    intro c hc hty
    obtain ⟨c', hc', rfl⟩ := List.mem_map.mp hc
    obtain ⟨p, _, hp⟩ := List.mem_filterMap.mp hc'
    have htype := (sent_type w { Host := hostname } p c' hp).1
    have hty' : c'.Type_ = "http" := hty
    cases p with
    | ping => rw [htype] at hty'; exact absurd hty' (by decide)
    | http => simp [sent, herr hs, Except.toOption] at hp
    | https => rw [htype] at hty'; exact absurd hty' (by decide)
    | dns => rw [htype] at hty'; exact absurd hty' (by decide)

theorem DiscoverHttp_redirect_witness :
    redirectWorld.Head (httpTarget { Host := "example.com" }) =
      .ok ⟨"https", "example.com", "/"⟩ ∧
    DiscoverHttp redirectWorld { Host := "example.com" } =
      .error (.other "HTTP redirects to HTTPS") ∧
    ∃ dto, Discover redirectWorld [7] allProbes 2 "example.com" = some (.ok dto) ∧
      ∀ c ∈ dto.Checks, c.Type_ ≠ "http" := by
  have h := DiscoverHttp_redirect redirectWorld { Host := "example.com" }
    ⟨"https", "example.com", "/"⟩ rfl
  exact ⟨rfl, h.2.1 (by decide), h.2.2 [7] allProbes 2 "example.com" rfl (by decide) (by decide)⟩

theorem hostPort_plain (host : String) (defaultPort : Int) (h : ':' ∉ host.data) :
    hostPort host defaultPort = (host, defaultPort) := by
  simp [hostPort, Split, splitChars_of_no_sep ':' host.data h]

/-- C7 fails on the code for a bracketed IPv6 authority: splitting
`[::1]:8080` at every colon makes the host setting `[` and the port setting 0,
both in `DiscoverHttp` and in `DiscoverHttps` (there for `[::1]`, whose port
should default to 443), while the path is the path of the final URL. -/
theorem hostPort_ipv6_authority :
    hostPort "[::1]:8080" 80 = ("[", 0) ∧
    hostPort "[::1]" 443 = ("[", 0) ∧
    hostPort "example.com:8080" 80 = ("example.com", 8080) ∧
    hostPort "example.com" 80 = ("example.com", 80) ∧
    (∃ check, DiscoverHttp ipv6World { Host := "[::1]:8080" } = .ok check ∧
      check.Settings.get "host" = some (.str "[") ∧
      check.Settings.get "port" = some (.int64 0) ∧
      check.Settings.get "path" = some (.str "/")) ∧
    (∃ check, DiscoverHttps ipv6World { Host := "[::1]" } = .ok check ∧
      check.Settings.get "host" = some (.str "[") ∧
      check.Settings.get "port" = some (.int64 0) ∧
      check.Settings.get "path" = some (.str "/")) := by
  refine ⟨by decide, by decide, by decide, by decide, ⟨_, rfl, ?_, ?_, ?_⟩, ⟨_, rfl, ?_, ?_, ?_⟩⟩ <;>
    decide

/-! ### `InitEndpointDiscovery` -/

theorem initLoop_all_found (G : String → Int → Except Error ProbeDTO) (names : List String) :
    ∀ (dp : List Int) (lk : List String),
      (∀ n ∈ names, ∀ e, G n 1 = .error e → e = Error.ErrProbeNotFound) →
      initLoop G names dp lk = ⟨none, dp ++ resolvedIds G names, lk ++ names⟩ := by
  induction names with
  | nil => intro dp lk _; simp [initLoop, resolvedIds]
  | cons n rest ih =>
    intro dp lk h
    have hrest : ∀ m ∈ rest, ∀ e, G m 1 = .error e → e = Error.ErrProbeNotFound :=
      fun m hm e he => h m (List.mem_cons_of_mem _ hm) e he
    cases hG : G n 1 with
    | error e =>
      have he : e = Error.ErrProbeNotFound := h n (List.mem_cons_self _ _) e hG
      subst he
      rw [initLoop]
      simp only [hG, if_true]
      rw [ih _ _ hrest]
      simp [resolvedIds, hG]
    | ok probe =>
      rw [initLoop]
      simp only [hG]
      rw [ih _ _ hrest]
      simp [resolvedIds, hG]

theorem initLoop_first_failure (G : String → Int → Except Error ProbeDTO) (pre : List String) :
    ∀ (n : String) (post : List String) (e : Error) (dp : List Int) (lk : List String),
      (∀ m ∈ pre, ∀ e', G m 1 = .error e' → e' = Error.ErrProbeNotFound) →
      G n 1 = .error e → e ≠ Error.ErrProbeNotFound →
      initLoop G (pre ++ n :: post) dp lk = ⟨some e, dp ++ resolvedIds G pre, lk ++ pre ++ [n]⟩ := by
  induction pre with
  | nil =>
    intro n post e dp lk _ hn hne
    simp [initLoop, hn, hne, resolvedIds]
  | cons m rest ih =>
    intro n post e dp lk h hn hne
    have hrest : ∀ k ∈ rest, ∀ e', G k 1 = .error e' → e' = Error.ErrProbeNotFound :=
      fun k hk e' he' => h k (List.mem_cons_of_mem _ hk) e' he'
    cases hG : G m 1 with
    | error e' =>
      have he : e' = Error.ErrProbeNotFound := h m (List.mem_cons_self _ _) e' hG
      subst he
      rw [List.cons_append, initLoop]
      simp only [hG, if_true]
      rw [ih n post e _ _ hrest hn hne]
      simp [resolvedIds, hG]
    | ok probe =>
      rw [List.cons_append, initLoop]
      simp only [hG]
      rw [ih n post e _ _ hrest hn hne]
      simp [resolvedIds, hG]

/-- C10: starting from an empty default probe set, if no lookup fails with an
error other than probe-not-found then `InitEndpointDiscovery` returns `nil`, has
looked up every name of the fixed list in order, and leaves the IDs of the
names that resolved, in that order; if the lookup of some name fails with
another error, it returns the error of the first such name and has looked up
exactly the names up to and including that one. -/
theorem InitEndpointDiscovery_spec (G : String → Int → Except Error ProbeDTO) :
    defaultProbeNames = ["VNPT_HN", "VNPT", "FPT", "VIETTEL", "THANHPV", "THANHPVWINDOW"] ∧
    ((∀ n ∈ defaultProbeNames, ∀ e, G n 1 = .error e → e = Error.ErrProbeNotFound) →
      InitEndpointDiscovery G [] =
        ⟨none, resolvedIds G defaultProbeNames, defaultProbeNames⟩) ∧
    (∀ (pre : List String) (n : String) (post : List String) (e : Error),
      defaultProbeNames = pre ++ n :: post →
      (∀ m ∈ pre, ∀ e', G m 1 = .error e' → e' = Error.ErrProbeNotFound) →
      G n 1 = .error e → e ≠ Error.ErrProbeNotFound →
      InitEndpointDiscovery G [] = ⟨some e, resolvedIds G pre, pre ++ [n]⟩) := by
  refine ⟨rfl, ?_, ?_⟩
  · intro h
    have := initLoop_all_found G defaultProbeNames [] [] h
    simpa [InitEndpointDiscovery] using this
  · intro pre n post e hsplit hpre hn hne
    have := initLoop_first_failure G pre n post e [] [] hpre hn hne
    simpa [InitEndpointDiscovery, hsplit] using this

theorem InitEndpointDiscovery_spec_witness :
    InitEndpointDiscovery storageGaps [] =
      ⟨none, [11, 13, 14, 15, 16],
        ["VNPT_HN", "VNPT", "FPT", "VIETTEL", "THANHPV", "THANHPVWINDOW"]⟩ ∧
    InitEndpointDiscovery storageBroken [] =
      ⟨some (.other "connection refused"), [11, 13], ["VNPT_HN", "VNPT", "FPT", "VIETTEL"]⟩ := by
  constructor
  · have h := (InitEndpointDiscovery_spec storageGaps).2.1 (by
      intro n hn e he
      simp only [defaultProbeNames, List.mem_cons, List.mem_singleton, List.not_mem_nil,
        or_false] at hn
      rcases hn with rfl | rfl | rfl | rfl | rfl | rfl <;> simp [storageGaps] at he
      exact he.symm)
    rw [h]; decide
  · have h := (InitEndpointDiscovery_spec storageBroken).2.2
      ["VNPT_HN", "VNPT", "FPT"] "VIETTEL" ["THANHPV", "THANHPVWINDOW"]
      (.other "connection refused") rfl (by
        intro n hn e he
        simp only [List.mem_cons, List.mem_singleton, List.not_mem_nil, or_false] at hn
        rcases hn with rfl | rfl | rfl <;> simp [storageBroken] at he
        exact he.symm)
      rfl (by decide)
    rw [h]; decide

/-! ### The static generators -/

/-- C8: for every hostname `GetDefaultChecks` returns no error and an
`EndpointDTO` named after the hostname whose eight checks are http, https,
static, clink, tcp, cdnintegrity, dns, ping in that order, with frequencies
60, 60, 60, 1800, 1800, 1800, 60, 10, enabled exactly for http, https and
static, each with the route by IDs over the default probe set and health
settings `{1, 1}`. -/
theorem GetDefaultChecks_template (defaultProbes : List Int) (hostname : String) :
    ∃ dto, GetDefaultChecks defaultProbes hostname = .ok dto ∧
      dto.Name = hostname ∧
      dto.Checks.map (fun c => (c.Type_, c.Frequency, c.Enabled)) =
        [("http", 60, true), ("https", 60, true), ("static", 60, true),
         ("clink", 1800, false), ("tcp", 1800, false), ("cdnintegrity", 1800, false),
         ("dns", 60, false), ("ping", 10, false)] ∧
      ∀ c ∈ dto.Checks,
        c.Route = some (defaultRoute defaultProbes) ∧
        (∃ r, c.Route = some r ∧ r.Type_ = RouteType.RouteByIds ∧
          r.Config.get "ids" = some (.int64s defaultProbes)) ∧
        c.HealthSettings = some { NumProbes := 1, Steps := 1 } := by
  refine ⟨_, rfl, rfl, rfl, ?_⟩
  intro c hc
  simp only [List.nil_append, List.cons_append, List.mem_cons, List.mem_singleton,
    List.not_mem_nil, or_false] at hc
  rcases hc with rfl | rfl | rfl | rfl | rfl | rfl | rfl | rfl <;>
    exact ⟨rfl, ⟨_, rfl, rfl, rfl⟩, rfl⟩

/-- C9: for every hostname, `api.getDefaultChecks` returns the result of
`endpointdiscovery.GetDefaultChecks` with the tcp check removed, the static
check disabled and every `Route` and `HealthSettings` set to `nil`: seven checks
http, https, static, clink, cdnintegrity, dns, ping, of which only http and
https are enabled. -/
theorem getDefaultChecks_agrees (defaultProbes : List Int) (hostname : String) :
    api.getDefaultChecks hostname =
      (GetDefaultChecks defaultProbes hostname).map withoutMetadata ∧
    ∃ dto dto', api.getDefaultChecks hostname = .ok dto ∧
      GetDefaultChecks defaultProbes hostname = .ok dto' ∧
      dto.Name = dto'.Name ∧
      dto.Checks.map (fun c => (c.Type_, c.Enabled)) =
        [("http", true), ("https", true), ("static", false), ("clink", false),
         ("cdnintegrity", false), ("dns", false), ("ping", false)] ∧
      dto.Checks.map (fun c => (c.Type_, c.Frequency, c.Settings)) =
        (dto'.Checks.filter (fun c => c.Type_ ≠ "tcp")).map
          (fun c => (c.Type_, c.Frequency, c.Settings)) ∧
      ∀ c ∈ dto.Checks, c.Route = none ∧ c.HealthSettings = none := by
  refine ⟨?_, _, _, rfl, rfl, rfl, rfl, ?_, ?_⟩
  · simp [api.getDefaultChecks, GetDefaultChecks, NewEndpoint, withoutMetadata, Except.map,
      Check.bare]
  · simp
  · intro c hc
    simp only [List.nil_append, List.cons_append, List.mem_cons, List.mem_singleton,
      List.not_mem_nil, or_false] at hc
    rcases hc with rfl | rfl | rfl | rfl | rfl | rfl | rfl <;> exact ⟨rfl, rfl⟩

end Worldping
